import Mathlib

/-!
Verification of the kinetic-model core of the pollutant-degradation
visualizer: the three model functions (`src/models/first_order.py`,
`src/models/second_order.py`, `src/models/langmuir_hinshelwood.py`),
the validation gate and statistics calculator
(`src/utils/data_processing.py`), and the fitting wrappers.

Real-valued (`ℝ`) shallow embedding for the numeric formulas; the one
claim about IEEE special values (silent `NaN` from an unguarded
logarithm) uses an explicit extended-value type `PFloat` that models
numpy's float semantics for the operations the formula performs.
-/

/-- `np.clip(x, lo, hi)` for finite real bounds. -/
noncomputable def np_clip (x lo hi : ℝ) : ℝ := min (max x lo) hi

/-- `first_order_model(t, k, c0)` from `src/models/first_order.py`:
`k` is clipped to `[0, 1e3]`, the exponential term `exp(-k*t)` is
clipped to `[0, 1e100]`, and the result is `c0 * exp_term`. -/
noncomputable def first_order_model (t k c0 : ℝ) : ℝ :=
  c0 * np_clip (Real.exp (-(np_clip k 0 1000) * t)) 0 1e100

/-- `second_order_model(t, k, c0)` from `src/models/second_order.py`:
`k` is clipped to `[0, 1e3]`, the denominator `1 + k*c0*t` is clipped
to `[1e-10, np.inf]` (a lower floor only), and the result is
`c0 / denominator`. -/
noncomputable def second_order_model (t k c0 : ℝ) : ℝ :=
  c0 / max (1 + np_clip k 0 1000 * c0 * t) 1e-10

/-- `langmuir_hinshelwood_model(t, k, K, c0)` from
`src/models/langmuir_hinshelwood.py`: both parameters clipped to
`[0, 1e3]`, then
`term1 = K*c0`, `term2 = log(c0) - log(c0*exp(-k*t))`, result
`(term1*term2 + c0 - c0*exp(-k*t)) / (1 + K*c0*exp(-k*t))`.
Real-valued embedding (`Real.log`); the `NaN` behaviour of the same
formula at non-positive logarithm arguments is modelled separately by
`langmuir_hinshelwood_model_fp`. -/
noncomputable def langmuir_hinshelwood_model (t k K c0 : ℝ) : ℝ :=
  let k_clipped := np_clip k 0 1000
  let K_clipped := np_clip K 0 1000
  let term1 := K_clipped * c0
  let term2 := Real.log c0 - Real.log (c0 * Real.exp (-k_clipped * t))
  (term1 * term2 + c0 - c0 * Real.exp (-k_clipped * t)) /
    (1 + K_clipped * c0 * Real.exp (-k_clipped * t))

/-- The first-order model applied to an array of time points: numpy
broadcasts the scalar formula elementwise over `t`. -/
noncomputable def first_order_model_vec (ts : List ℝ) (k c0 : ℝ) : List ℝ :=
  ts.map fun t => first_order_model t k c0

/-- The second-order model applied elementwise to an array of time points. -/
noncomputable def second_order_model_vec (ts : List ℝ) (k c0 : ℝ) : List ℝ :=
  ts.map fun t => second_order_model t k c0

/-- The Langmuir-Hinshelwood model applied elementwise to an array of
time points. -/
noncomputable def langmuir_hinshelwood_model_vec (ts : List ℝ) (k K c0 : ℝ) : List ℝ :=
  ts.map fun t => langmuir_hinshelwood_model t k K c0

/-- The unclamped first-order formula `c0 * exp(-k*t)`, as the spec
states it (section 4.1), for comparison with the defensive-clamp
version the code computes. -/
noncomputable def first_order_formula (t k c0 : ℝ) : ℝ := c0 * Real.exp (-k * t)

/-- The unclamped second-order formula `c0 / (1 + k*c0*t)`, as the
spec states it (section 4.1). -/
noncomputable def second_order_formula (t k c0 : ℝ) : ℝ := c0 / (1 + k * c0 * t)

/-- A numpy double, as far as the Langmuir-Hinshelwood formula is
concerned: a finite real, one of the two infinities, or `NaN`.
(Overflow of a finite result to an infinity is not modelled; none of
the concrete evaluations below comes near the finite range's edge.) -/
inductive PFloat where
  | fin : ℝ → PFloat
  | pinf : PFloat
  | ninf : PFloat
  | nan : PFloat

/-- IEEE negation. -/
def PFloat.neg : PFloat → PFloat
  | .fin a => .fin (-a)
  | .pinf => .ninf
  | .ninf => .pinf
  | .nan => .nan

/-- IEEE addition: `NaN` propagates, opposite infinities give `NaN`. -/
noncomputable def PFloat.add : PFloat → PFloat → PFloat
  | .nan, _ => .nan
  | _, .nan => .nan
  | .fin a, .fin b => .fin (a + b)
  | .pinf, .ninf => .nan
  | .ninf, .pinf => .nan
  | .pinf, _ => .pinf
  | _, .pinf => .pinf
  | .ninf, _ => .ninf
  | _, .ninf => .ninf

/-- IEEE subtraction, as addition of the negation. -/
noncomputable def PFloat.sub (x y : PFloat) : PFloat := x.add y.neg

/-- IEEE multiplication: `NaN` propagates, `0 * ±inf = NaN`. -/
noncomputable def PFloat.mul : PFloat → PFloat → PFloat
  | .nan, _ => .nan
  | _, .nan => .nan
  | .fin a, .fin b => .fin (a * b)
  | .pinf, .pinf => .pinf
  | .pinf, .ninf => .ninf
  | .ninf, .pinf => .ninf
  | .ninf, .ninf => .pinf
  | .pinf, .fin b => if 0 < b then .pinf else if b < 0 then .ninf else .nan
  | .fin a, .pinf => if 0 < a then .pinf else if a < 0 then .ninf else .nan
  | .ninf, .fin b => if 0 < b then .ninf else if b < 0 then .pinf else .nan
  | .fin a, .ninf => if 0 < a then .ninf else if a < 0 then .pinf else .nan

/-- IEEE division (sign of zero not modelled): `NaN` propagates,
`0/0` and `inf/inf` are `NaN`, finite/0 is a signed infinity,
finite/inf is `0`. -/
noncomputable def PFloat.div : PFloat → PFloat → PFloat
  | .nan, _ => .nan
  | _, .nan => .nan
  | .fin a, .fin b =>
      if b = 0 then (if a = 0 then .nan else if 0 < a then .pinf else .ninf)
      else .fin (a / b)
  | .pinf, .fin b => if 0 ≤ b then .pinf else .ninf
  | .ninf, .fin b => if 0 ≤ b then .ninf else .pinf
  | .fin _, .pinf => .fin 0
  | .fin _, .ninf => .fin 0
  | .pinf, .pinf => .nan
  | .pinf, .ninf => .nan
  | .ninf, .pinf => .nan
  | .ninf, .ninf => .nan

/-- `np.exp` on a double: `exp(-inf) = 0`, `exp(inf) = inf`, `NaN`
propagates (overflow of a finite argument not modelled). -/
noncomputable def PFloat.exp : PFloat → PFloat
  | .fin a => .fin (Real.exp a)
  | .pinf => .pinf
  | .ninf => .fin 0
  | .nan => .nan

/-- `np.log` on a double: `log 0 = -inf`, `log x = NaN` for `x < 0`,
`log inf = inf`, `NaN` propagates. This is the unguarded numpy
logarithm exactly as the code calls it. -/
noncomputable def PFloat.log : PFloat → PFloat
  | .fin a => if 0 < a then .fin (Real.log a) else if a = 0 then .ninf else .nan
  | .pinf => .pinf
  | .ninf => .nan
  | .nan => .nan

/-- `np.clip` on a double with finite bounds: `NaN` passes through,
infinities clamp to the corresponding bound. -/
noncomputable def PFloat.clip : PFloat → ℝ → ℝ → PFloat
  | .fin a, lo, hi => .fin (min (max a lo) hi)
  | .pinf, _, hi => .fin hi
  | .ninf, lo, _ => .fin lo
  | .nan, _, _ => .nan

/-- `langmuir_hinshelwood_model(t, k, K, c0)` re-embedded over numpy
double semantics (`PFloat`), operation for operation as the source
writes it, with the unguarded `np.log`. Used to settle what the code
returns when a logarithm argument is non-positive. -/
noncomputable def langmuir_hinshelwood_model_fp (t k K c0 : PFloat) : PFloat :=
  let k_clipped := k.clip 0 1000
  let K_clipped := K.clip 0 1000
  let term1 := K_clipped.mul c0
  let e := PFloat.exp (k_clipped.neg.mul t)
  let term2 := (PFloat.log c0).sub (PFloat.log (c0.mul e))
  (((term1.mul term2).add c0).sub (c0.mul e)).div
    ((PFloat.fin 1).add ((K_clipped.mul c0).mul e))

/-- The validation error messages of `validate_data`
(`src/utils/data_processing.py`), verbatim. -/
def msgLenMismatch : String := "Number of time points must match number of concentration points"

/-- Error message for fewer than 3 data points. -/
def msgTooFew : String := "At least 3 data points are required for fitting"

/-- Error message for a negative time value. -/
def msgNegTime : String := "Time values must be non-negative"

/-- Error message for a negative concentration value. -/
def msgNegConc : String := "Concentration values must be non-negative"

/-- Error message for non-strictly-increasing time values. -/
def msgNotIncreasing : String := "Time values must be strictly increasing"

/-- `validate_data(time_points, conc_points)` from
`src/utils/data_processing.py`: five independent checks, each
appending one message to the error list; the pairwise-increase check
is the code's `zip(time_points[:-1], time_points[1:])` scan.
Rationals stand in for the floats (the function only compares). -/
def validate_data (time_points conc_points : List ℚ) : List String :=
  (if time_points.length ≠ conc_points.length then [msgLenMismatch] else []) ++
  (if time_points.length < 3 then [msgTooFew] else []) ++
  (if time_points.any (fun t => decide (t < 0)) then [msgNegTime] else []) ++
  (if conc_points.any (fun c => decide (c < 0)) then [msgNegConc] else []) ++
  (if (time_points.zip time_points.tail).any (fun p => decide (p.2 ≤ p.1))
    then [msgNotIncreasing] else [])

/-- The statistics bundle returned by `calculate_statistics`. `r2` is
`none` exactly when the observed values have zero variance, where the
numpy expression `1 - ss_res/ss_tot` divides by zero and yields a
non-finite value (`NaN` or `-inf`) instead of a real number. -/
structure FitStats where
  rmse : ℝ
  r2 : Option ℝ
  mae : ℝ
  mse : ℝ

/-- `calculate_statistics(predicted, actual)` from
`src/utils/data_processing.py`: `residuals = actual - predicted`,
`rmse = sqrt(mean(residuals**2))`,
`r2 = 1 - sum(residuals**2) / sum((actual - mean(actual))**2)`,
`mae = mean(|residuals|)`, `mse = mean(residuals**2)`. -/
noncomputable def calculate_statistics (predicted actual : List ℝ) : FitStats :=
  let residuals := List.zipWith (fun a p => a - p) actual predicted
  let ss_res := (residuals.map fun r => r ^ 2).sum
  let mse := ss_res / (residuals.length : ℝ)
  let rmse := Real.sqrt mse
  let meanA := actual.sum / (actual.length : ℝ)
  let ss_tot := (actual.map fun a => (a - meanA) ^ 2).sum
  let r2 := if ss_tot = 0 then none else some (1 - ss_res / ss_tot)
  let mae := (residuals.map fun r => |r|).sum / (residuals.length : ℝ)
  ⟨rmse, r2, mae, mse⟩

/-- The distinct failure `scipy.optimize.curve_fit` raises when the
optimizer does not converge (`RuntimeError: Optimal parameters not
found`), which the fitting wrappers neither catch nor replace. -/
inductive FitError where
  | didNotConverge : FitError

/-- `fit_first_order(time_points, conc_points, c0)` from
`src/models/first_order.py`, with `curve_fit` abstracted as an
argument (scipy is outside the repository): the wrapper calls the
solver once on `lambda t, k: first_order_model(t, k, c0)` with bounds
`(0, 1e3)`; if the solver raises, the exception propagates untouched
(`Except.map` runs the statistics block only on success — there is no
retry, no fallback value and no partial result); on success it returns
the full `(k, r2, rmse)` tuple computed exactly as the source does. -/
noncomputable def fit_first_order
    (curve_fit : (ℝ → ℝ → ℝ) → List ℝ → List ℝ → ℝ × ℝ → Except FitError ℝ)
    (time_points conc_points : List ℝ) (c0 : ℝ) :
    Except FitError (ℝ × Option ℝ × ℝ) :=
  (curve_fit (fun t k => first_order_model t k c0) time_points conc_points
      (0, 1000)).map fun k =>
    let predicted := first_order_model_vec time_points k c0
    let residuals := List.zipWith (fun c p => c - p) conc_points predicted
    let ss_res := (residuals.map fun r => r ^ 2).sum
    let rmse := Real.sqrt (ss_res / (residuals.length : ℝ))
    let meanC := conc_points.sum / (conc_points.length : ℝ)
    let ss_tot := (conc_points.map fun c => (c - meanC) ^ 2).sum
    let r2 := if ss_tot = 0 then none else some (1 - ss_res / ss_tot)
    (k, r2, rmse)

/-- `fit_second_order(time_points, conc_points, c0)` from
`src/models/second_order.py`, same structure as the first-order
wrapper. -/
noncomputable def fit_second_order
    (curve_fit : (ℝ → ℝ → ℝ) → List ℝ → List ℝ → ℝ × ℝ → Except FitError ℝ)
    (time_points conc_points : List ℝ) (c0 : ℝ) :
    Except FitError (ℝ × Option ℝ × ℝ) :=
  (curve_fit (fun t k => second_order_model t k c0) time_points conc_points
      (0, 1000)).map fun k =>
    let predicted := second_order_model_vec time_points k c0
    let residuals := List.zipWith (fun c p => c - p) conc_points predicted
    let ss_res := (residuals.map fun r => r ^ 2).sum
    let rmse := Real.sqrt (ss_res / (residuals.length : ℝ))
    let meanC := conc_points.sum / (conc_points.length : ℝ)
    let ss_tot := (conc_points.map fun c => (c - meanC) ^ 2).sum
    let r2 := if ss_tot = 0 then none else some (1 - ss_res / ss_tot)
    (k, r2, rmse)

/-- `fit_langmuir_hinshelwood(time_points, conc_points, c0)` from
`src/models/langmuir_hinshelwood.py`: one solver call on
`lambda t, k, K: langmuir_hinshelwood_model(t, k, K, c0)` with initial
guess `p0 = (0.1, 0.1)` and bounds `([0,0],[1e3,1e3])`; failure
propagates, success yields the full `(k, K, r2, rmse)` tuple. -/
noncomputable def fit_langmuir_hinshelwood
    (curve_fit : (ℝ → ℝ → ℝ → ℝ) → List ℝ → List ℝ → ℝ × ℝ →
      (ℝ × ℝ) × (ℝ × ℝ) → Except FitError (ℝ × ℝ))
    (time_points conc_points : List ℝ) (c0 : ℝ) :
    Except FitError (ℝ × ℝ × Option ℝ × ℝ) :=
  (curve_fit (fun t k K => langmuir_hinshelwood_model t k K c0)
      time_points conc_points (0.1, 0.1) ((0, 0), (1000, 1000))).map fun p =>
    let predicted := langmuir_hinshelwood_model_vec time_points p.1 p.2 c0
    let residuals := List.zipWith (fun c q => c - q) conc_points predicted
    let ss_res := (residuals.map fun r => r ^ 2).sum
    let rmse := Real.sqrt (ss_res / (residuals.length : ℝ))
    let meanC := conc_points.sum / (conc_points.length : ℝ)
    let ss_tot := (conc_points.map fun c => (c - meanC) ^ 2).sum
    let r2 := if ss_tot = 0 then none else some (1 - ss_res / ss_tot)
    (p.1, p.2, r2, rmse)

theorem np_clip_eq_self {x lo hi : ℝ} (h1 : lo ≤ x) (h2 : x ≤ hi) :
    np_clip x lo hi = x := by
  unfold np_clip; rw [max_eq_left h1, min_eq_left h2]

theorem np_clip_of_nonpos {x : ℝ} (h : x ≤ 0) : np_clip x 0 1000 = 0 := by
  unfold np_clip
  rw [max_eq_right h, min_eq_left (by norm_num)]

theorem np_clip_k_nonneg (k : ℝ) : 0 ≤ np_clip k 0 1000 :=
  le_min (le_max_right k 0) (by norm_num)

theorem exp_clip_id {u : ℝ} (hu : u ≤ 0) :
    np_clip (Real.exp u) 0 1e100 = Real.exp u :=
  np_clip_eq_self (Real.exp_pos u).le
    (le_trans (Real.exp_le_one_iff.mpr hu) (by norm_num))

theorem first_order_model_eq_formula {t k c0 : ℝ} (hk0 : 0 ≤ k)
    (hk1 : k ≤ 1000) (ht : 0 ≤ t) :
    first_order_model t k c0 = first_order_formula t k c0 := by
  unfold first_order_model first_order_formula
  rw [np_clip_eq_self hk0 hk1,
    exp_clip_id (by simpa using mul_nonneg hk0 ht)]

theorem second_order_model_eq_formula {t k c0 : ℝ} (hk0 : 0 ≤ k)
    (hk1 : k ≤ 1000) (ht : 0 ≤ t) (hc0 : 0 ≤ c0) :
    second_order_model t k c0 = second_order_formula t k c0 := by
  unfold second_order_model second_order_formula
  rw [np_clip_eq_self hk0 hk1, max_eq_left]
  nlinarith [mul_nonneg (mul_nonneg hk0 hc0) ht]

/-- Claim C1: predicted concentration at `t = 0` for each model, at
`k = 1`, `K = 1`, `C₀ = 1`. The first- and second-order models return
`C₀` exactly, but the Langmuir-Hinshelwood model returns `0`: at
`t = 0` its numerator `term1*term2 + c0 - c0*exp(0)` vanishes
identically, so the function does not return `C₀`. -/
theorem models_at_time_zero_eval :
    first_order_model 0 1 1 = 1 ∧ second_order_model 0 1 1 = 1 ∧
    langmuir_hinshelwood_model 0 1 1 1 = 0 := by
  refine ⟨?_, ?_, ?_⟩
  · rw [first_order_model_eq_formula (by norm_num) (by norm_num) le_rfl]
    simp [first_order_formula]
  · rw [second_order_model_eq_formula (by norm_num) (by norm_num) le_rfl
      (by norm_num)]
    simp [second_order_formula]
  · unfold langmuir_hinshelwood_model
    rw [np_clip_eq_self (by norm_num) (by norm_num)]
    simp [Real.exp_zero, Real.log_one]

/-- Claim C7: for `k > 0`, `C₀ > 0` and `0 ≤ t1 ≤ t2`, the first- and
second-order predictions are non-increasing in `t`. -/
theorem models_nonincreasing (k c0 t1 t2 : ℝ) (hk : 0 < k) (hc0 : 0 < c0)
    (ht1 : 0 ≤ t1) (h12 : t1 ≤ t2) :
    first_order_model t2 k c0 ≤ first_order_model t1 k c0 ∧
    second_order_model t2 k c0 ≤ second_order_model t1 k c0 := by
  have ht2 : 0 ≤ t2 := le_trans ht1 h12
  have hk'0 : 0 ≤ np_clip k 0 1000 := np_clip_k_nonneg k
  constructor
  · unfold first_order_model
    rw [exp_clip_id (by nlinarith [mul_nonneg hk'0 ht2]),
      exp_clip_id (by nlinarith [mul_nonneg hk'0 ht1])]
    exact mul_le_mul_of_nonneg_left
      (Real.exp_le_exp.mpr (by nlinarith [mul_le_mul_of_nonneg_left h12 hk'0]))
      hc0.le
  · unfold second_order_model
    rw [max_eq_left (by nlinarith [mul_nonneg (mul_nonneg hk'0 hc0.le) ht2]),
      max_eq_left (by nlinarith [mul_nonneg (mul_nonneg hk'0 hc0.le) ht1])]
    exact (div_le_div_iff_of_pos_left hc0
      (by nlinarith [mul_nonneg (mul_nonneg hk'0 hc0.le) ht2])
      (by nlinarith [mul_nonneg (mul_nonneg hk'0 hc0.le) ht1])).mpr
      (by nlinarith [mul_le_mul_of_nonneg_left h12 (mul_nonneg hk'0 hc0.le)])

/-- Witness for C7 at `k = 1`, `C₀ = 1`, `t1 = 0`, `t2 = 1`. -/
theorem models_nonincreasing_witness :
    first_order_model 1 1 1 ≤ first_order_model 0 1 1 ∧
    second_order_model 1 1 1 ≤ second_order_model 0 1 1 :=
  models_nonincreasing 1 1 0 1 (by norm_num) (by norm_num) le_rfl
    (by norm_num)

/-- Claim C9: each vectorized model returns exactly as many
predictions as there are time points, and the `i`-th prediction is the
scalar model applied to the `i`-th time point. -/
theorem model_vec_length_and_order (ts : List ℝ) (k K c0 : ℝ) (i : ℕ) :
    ((first_order_model_vec ts k c0).length = ts.length ∧
      (first_order_model_vec ts k c0)[i]? =
        ts[i]?.map fun t => first_order_model t k c0) ∧
    ((second_order_model_vec ts k c0).length = ts.length ∧
      (second_order_model_vec ts k c0)[i]? =
        ts[i]?.map fun t => second_order_model t k c0) ∧
    ((langmuir_hinshelwood_model_vec ts k K c0).length = ts.length ∧
      (langmuir_hinshelwood_model_vec ts k K c0)[i]? =
        ts[i]?.map fun t => langmuir_hinshelwood_model t k K c0) := by
  unfold first_order_model_vec second_order_model_vec
    langmuir_hinshelwood_model_vec
  simp [List.getElem?_map]

/-- Claim C10: on the intended domain `0 ≤ k ≤ 1000`, `t ≥ 0`,
`C₀ ≥ 0` the defensive clamps are no-ops — the code equals the
unclamped formulas — and for `k < 0` both models behave as if
`k = 0`, returning the constant `C₀`. -/
theorem clamps_noop_on_intended_domain (k t c0 : ℝ) :
    (0 ≤ k → k ≤ 1000 → 0 ≤ t →
      first_order_model t k c0 = first_order_formula t k c0) ∧
    (0 ≤ k → k ≤ 1000 → 0 ≤ t → 0 ≤ c0 →
      second_order_model t k c0 = second_order_formula t k c0) ∧
    (k < 0 → first_order_model t k c0 = c0 ∧ second_order_model t k c0 = c0) := by
  refine ⟨fun h1 h2 h3 => first_order_model_eq_formula h1 h2 h3,
    fun h1 h2 h3 h4 => second_order_model_eq_formula h1 h2 h3 h4,
    fun hneg => ⟨?_, ?_⟩⟩
  · unfold first_order_model
    rw [np_clip_of_nonpos hneg.le, neg_zero, zero_mul, Real.exp_zero,
      np_clip_eq_self (by norm_num) (by norm_num), mul_one]
  · unfold second_order_model
    rw [np_clip_of_nonpos hneg.le, zero_mul, zero_mul, add_zero,
      max_eq_left (by norm_num), div_one]

/-- Witness for C10 at `k = 1, t = 2, C₀ = 3` (clamp no-op) and
`k = -1` (behaves as `k = 0`). -/
theorem clamps_noop_witness :
    first_order_model 2 1 3 = first_order_formula 2 1 3 ∧
    second_order_model 2 1 3 = second_order_formula 2 1 3 ∧
    first_order_model 2 (-1) 3 = 3 :=
  ⟨(clamps_noop_on_intended_domain 1 2 3).1 (by norm_num) (by norm_num)
      (by norm_num),
    (clamps_noop_on_intended_domain 1 2 3).2.1 (by norm_num) (by norm_num)
      (by norm_num) (by norm_num),
    ((clamps_noop_on_intended_domain (-1) 2 3).2.2 (by norm_num)).1⟩

/-- Claim C2: the Langmuir-Hinshelwood code applies `np.log` with no
guard. At `C₀ = 0` (here with `t = 0`, `k = K = 1`) both logarithm
arguments are `0`; numpy gives `log 0 = -inf`, the difference
`-inf - (-inf)` is `NaN`, and the function silently returns `NaN` in
its output — no fitting-failure is signalled. -/
theorem langmuir_hinshelwood_nan_at_zero_c0 :
    langmuir_hinshelwood_model_fp (.fin 0) (.fin 1) (.fin 1) (.fin 0) =
      PFloat.nan := by
  unfold langmuir_hinshelwood_model_fp
  simp [PFloat.clip, PFloat.neg, PFloat.mul, PFloat.exp, PFloat.log,
    PFloat.add, PFloat.sub, PFloat.div]

/-- Claim C5: each fitting wrapper makes one solver call and either
propagates the solver's distinct convergence failure unchanged — no
partial result, no fallback parameter value, no retry — or returns the
complete result tuple built from the fitted parameters. -/
theorem fit_functions_total_or_propagate
    (cf1 cf2 : (ℝ → ℝ → ℝ) → List ℝ → List ℝ → ℝ × ℝ → Except FitError ℝ)
    (cfLH : (ℝ → ℝ → ℝ → ℝ) → List ℝ → List ℝ → ℝ × ℝ →
      (ℝ × ℝ) × (ℝ × ℝ) → Except FitError (ℝ × ℝ))
    (tp cp : List ℝ) (c0 : ℝ) :
    ((∃ e, cf1 (fun t k => first_order_model t k c0) tp cp (0, 1000) =
          .error e ∧ fit_first_order cf1 tp cp c0 = .error e) ∨
      (∃ k, cf1 (fun t k => first_order_model t k c0) tp cp (0, 1000) =
          .ok k ∧
        ∃ r2 rmse, fit_first_order cf1 tp cp c0 = .ok (k, r2, rmse))) ∧
    ((∃ e, cf2 (fun t k => second_order_model t k c0) tp cp (0, 1000) =
          .error e ∧ fit_second_order cf2 tp cp c0 = .error e) ∨
      (∃ k, cf2 (fun t k => second_order_model t k c0) tp cp (0, 1000) =
          .ok k ∧
        ∃ r2 rmse, fit_second_order cf2 tp cp c0 = .ok (k, r2, rmse))) ∧
    ((∃ e, cfLH (fun t k K => langmuir_hinshelwood_model t k K c0) tp cp
          (0.1, 0.1) ((0, 0), (1000, 1000)) = .error e ∧
        fit_langmuir_hinshelwood cfLH tp cp c0 = .error e) ∨
      (∃ k K, cfLH (fun t k K => langmuir_hinshelwood_model t k K c0) tp cp
          (0.1, 0.1) ((0, 0), (1000, 1000)) = .ok (k, K) ∧
        ∃ r2 rmse, fit_langmuir_hinshelwood cfLH tp cp c0 =
          .ok (k, K, r2, rmse))) := by
  refine ⟨?_, ?_, ?_⟩
  · rcases h : cf1 (fun t k => first_order_model t k c0) tp cp (0, 1000) with
      e | k
    · refine Or.inl ⟨e, rfl, ?_⟩
      simp only [fit_first_order, h, Except.map]
    · refine Or.inr ⟨k, rfl, ?_⟩
      simp only [fit_first_order, h, Except.map]
      exact ⟨_, _, rfl⟩
  · rcases h : cf2 (fun t k => second_order_model t k c0) tp cp (0, 1000) with
      e | k
    · refine Or.inl ⟨e, rfl, ?_⟩
      simp only [fit_second_order, h, Except.map]
    · refine Or.inr ⟨k, rfl, ?_⟩
      simp only [fit_second_order, h, Except.map]
      exact ⟨_, _, rfl⟩
  · rcases h : cfLH (fun t k K => langmuir_hinshelwood_model t k K c0) tp cp
      (0.1, 0.1) ((0, 0), (1000, 1000)) with e | p
    · refine Or.inl ⟨e, rfl, ?_⟩
      simp only [fit_langmuir_hinshelwood, h, Except.map]
    · obtain ⟨k, K⟩ := p
      refine Or.inr ⟨k, K, rfl, ?_⟩
      simp only [fit_langmuir_hinshelwood, h, Except.map]
      exact ⟨_, _, rfl⟩

theorem any_zip_tail_eq_false_iff (l : List ℚ) :
    ((l.zip l.tail).any fun p => decide (p.2 ≤ p.1)) = false ↔
      l.Chain' (fun a b => a < b) := by
  induction l with
  | nil => simp
  | cons x xs ih =>
    cases xs with
    | nil => simp
    | cons y ys =>
      simp only [List.tail_cons, List.zip_cons_cons, List.any_cons,
        Bool.or_eq_false_iff, decide_eq_false_iff_not, not_le,
        List.chain'_cons] at ih ⊢
      exact and_congr Iff.rfl ih

theorem any_neg_eq_true_iff (l : List ℚ) :
    (l.any fun t => decide (t < 0)) = true ↔ ¬ ∀ t ∈ l, 0 ≤ t := by
  constructor
  · intro h hall
    obtain ⟨t, ht, hlt⟩ := List.any_eq_true.mp h
    exact absurd (hall t ht) (not_le.mpr (of_decide_eq_true hlt))
  · intro h
    push_neg at h
    obtain ⟨t, ht, hlt⟩ := h
    exact List.any_eq_true.mpr ⟨t, ht, decide_eq_true hlt⟩


/-- Claim C3: `validate_data` returns, in the code's fixed order, one
error message for each failed check among the five — equal lengths, at
least three points, no negative time, no negative concentration,
strictly increasing time — with no short-circuiting; the list is empty
iff all five checks pass; and fewer than three points in either
sequence always yields a non-empty list. -/
theorem validate_data_reports_each_failed_check (time conc : List ℚ) :
    (validate_data time conc =
      (if time.length = conc.length then [] else [msgLenMismatch]) ++
      (if 3 ≤ time.length then [] else [msgTooFew]) ++
      (if ∀ t ∈ time, 0 ≤ t then [] else [msgNegTime]) ++
      (if ∀ c ∈ conc, 0 ≤ c then [] else [msgNegConc]) ++
      (if time.Chain' (fun a b => a < b) then [] else [msgNotIncreasing])) ∧
    (validate_data time conc = [] ↔
      (time.length = conc.length ∧ 3 ≤ time.length ∧ (∀ t ∈ time, 0 ≤ t) ∧
        (∀ c ∈ conc, 0 ≤ c) ∧ time.Chain' (fun a b => a < b))) ∧
    (time.length < 3 ∨ conc.length < 3 → validate_data time conc ≠ []) := by
  have h1 : (if time.length ≠ conc.length then [msgLenMismatch] else []) =
      (if time.length = conc.length then [] else [msgLenMismatch]) := by
    by_cases h : time.length = conc.length <;> simp [h]
  have h2 : (if time.length < 3 then [msgTooFew] else []) =
      (if 3 ≤ time.length then [] else [msgTooFew]) := by
    by_cases h : 3 ≤ time.length
    · rw [if_neg (not_lt.mpr h), if_pos h]
    · rw [if_pos (not_le.mp h), if_neg h]
  have h3 : (if time.any fun t => decide (t < 0) then [msgNegTime]
      else []) = (if ∀ t ∈ time, 0 ≤ t then [] else [msgNegTime]) := by
    by_cases h : ∀ t ∈ time, 0 ≤ t
    · rw [if_pos h, if_neg]
      simp only [any_neg_eq_true_iff]
      exact not_not_intro h
    · rw [if_neg h, if_pos (any_neg_eq_true_iff time |>.mpr h)]
  have h4 : (if conc.any fun c => decide (c < 0) then [msgNegConc]
      else []) = (if ∀ c ∈ conc, 0 ≤ c then [] else [msgNegConc]) := by
    by_cases h : ∀ c ∈ conc, 0 ≤ c
    · rw [if_pos h, if_neg]
      simp only [any_neg_eq_true_iff]
      exact not_not_intro h
    · rw [if_neg h, if_pos (any_neg_eq_true_iff conc |>.mpr h)]
  have h5 : (if (time.zip time.tail).any fun p => decide (p.2 ≤ p.1)
      then [msgNotIncreasing] else []) =
      (if time.Chain' (fun a b => a < b) then [] else [msgNotIncreasing]) := by
    cases hb : (time.zip time.tail).any fun p => decide (p.2 ≤ p.1) with
    | false =>
      rw [if_pos (any_zip_tail_eq_false_iff time |>.mp hb)]
      simp
    | true =>
      have hnc : ¬ time.Chain' (fun a b => a < b) := by
        intro hchain
        rw [any_zip_tail_eq_false_iff time |>.mpr hchain] at hb
        exact Bool.false_ne_true hb
      rw [if_pos rfl, if_neg hnc]
  have hmain : validate_data time conc =
      (if time.length = conc.length then [] else [msgLenMismatch]) ++
      (if 3 ≤ time.length then [] else [msgTooFew]) ++
      (if ∀ t ∈ time, 0 ≤ t then [] else [msgNegTime]) ++
      (if ∀ c ∈ conc, 0 ≤ c then [] else [msgNegConc]) ++
      (if time.Chain' (fun a b => a < b) then [] else [msgNotIncreasing]) := by
    unfold validate_data
    rw [h1, h2, h3, h4, h5]
  have hseg : ∀ (P : Prop) [Decidable P] (m : String),
      ((if P then ([] : List String) else [m]) = [] ↔ P) := by
    intro P inst m
    by_cases h : P <;> simp [h]
  have hiff : validate_data time conc = [] ↔
      (time.length = conc.length ∧ 3 ≤ time.length ∧ (∀ t ∈ time, 0 ≤ t) ∧
        (∀ c ∈ conc, 0 ≤ c) ∧ time.Chain' (fun a b => a < b)) := by
    rw [hmain]
    simp only [List.append_eq_nil, hseg, and_assoc]
  refine ⟨hmain, hiff, fun hlt heq => ?_⟩
  obtain ⟨hlen, hcount, -⟩ := hiff.mp heq
  omega

/-- Witness for C3: two-point input fails validation. -/
theorem validate_data_witness : validate_data [0, 1] [0, 1] ≠ [] :=
  (validate_data_reports_each_failed_check [0, 1] [0, 1]).2.2
    (Or.inl (by norm_num))

theorem zipWith_sub_self (l : List ℝ) :
    List.zipWith (fun a p => a - p) l l = List.replicate l.length 0 := by
  induction l with
  | nil => rfl
  | cons x xs ih => simp [List.replicate_succ, ih]

theorem list_sum_pos_of_mem {l : List ℝ} (h0 : ∀ x ∈ l, 0 ≤ x) {x : ℝ}
    (hx : x ∈ l) (hxpos : 0 < x) : 0 < l.sum := by
  induction l with
  | nil => cases hx
  | cons a as ih =>
    rw [List.sum_cons]
    rcases List.mem_cons.mp hx with rfl | hmem
    · exact add_pos_of_pos_of_nonneg hxpos
        (List.sum_nonneg fun y hy => h0 y (List.mem_cons_of_mem _ hy))
    · exact add_pos_of_nonneg_of_pos (h0 a (List.mem_cons_self a as))
        (ih (fun y hy => h0 y (List.mem_cons_of_mem _ hy)) hmem)

theorem r2_eq_none_of_const (predicted actual : List ℝ) (x : ℝ)
    (hne : actual ≠ []) (hconst : ∀ a ∈ actual, a = x) :
    (calculate_statistics predicted actual).r2 = none := by
  have hlenne : (actual.length : ℝ) ≠ 0 :=
    Nat.cast_ne_zero.mpr (List.length_pos.mpr hne).ne'
  have hmean : actual.sum / (actual.length : ℝ) = x := by
    rw [List.sum_eq_card_nsmul actual x hconst, nsmul_eq_mul,
      mul_div_cancel_left₀ x hlenne]
  have htot : (actual.map fun a =>
      (a - actual.sum / (actual.length : ℝ)) ^ 2).sum = 0 := by
    apply List.sum_eq_zero
    intro y hy
    obtain ⟨a, ha, rfl⟩ := List.mem_map.mp hy
    rw [hmean, hconst a ha, sub_self]
    norm_num
  unfold calculate_statistics
  simp [htot]

/-- Counterexample to claim C4 as stated: with
`predicted = actual = [5, 5, 5]` (equal-length, non-empty,
elementwise-equal inputs) the observed variance is zero, the R²
expression divides `0/0`, and the code yields `NaN` (`none` here) —
not `1`. -/
theorem r2_constant_input_counterexample :
    (calculate_statistics [5, 5, 5] [5, 5, 5]).r2 ≠ some 1 := by
  rw [r2_eq_none_of_const [5, 5, 5] [5, 5, 5] 5 (by simp) (by simp)]
  simp

/-- Claim C4 (amended): when predicted equals actual elementwise and
the actual values are not all equal (nonzero variance), R² equals 1. -/
theorem r2_one_when_predicted_equals_actual (actual : List ℝ)
    (h : ∃ x ∈ actual, ∃ y ∈ actual, x ≠ y) :
    (calculate_statistics actual actual).r2 = some 1 := by
  obtain ⟨x, hx, y, hy, hxy⟩ := h
  have hres : (List.map (fun r => r ^ 2)
      (List.zipWith (fun a p => a - p) actual actual)).sum = 0 := by
    rw [zipWith_sub_self]
    simp
  have htot : 0 < (actual.map fun a =>
      (a - actual.sum / (actual.length : ℝ)) ^ 2).sum := by
    have hnn : ∀ z ∈ actual.map fun a =>
        (a - actual.sum / (actual.length : ℝ)) ^ 2, 0 ≤ z := by
      intro z hz
      obtain ⟨a, -, rfl⟩ := List.mem_map.mp hz
      positivity
    rcases ne_or_eq x (actual.sum / (actual.length : ℝ)) with hne | heq
    · exact list_sum_pos_of_mem hnn (List.mem_map_of_mem _ hx)
        (lt_of_le_of_ne (sq_nonneg _)
          (Ne.symm (pow_ne_zero 2 (sub_ne_zero.mpr hne))))
    · have hne' : y ≠ actual.sum / (actual.length : ℝ) := by
        intro hc
        exact hxy (heq.trans hc.symm)
      exact list_sum_pos_of_mem hnn (List.mem_map_of_mem _ hy)
        (lt_of_le_of_ne (sq_nonneg _)
          (Ne.symm (pow_ne_zero 2 (sub_ne_zero.mpr hne'))))
  unfold calculate_statistics
  simp only [hres, zero_div, sub_zero, if_neg htot.ne']

/-- Witness for the amended C4 at `actual = [1, 2, 3]`. -/
theorem r2_one_witness :
    (calculate_statistics [1, 2, 3] [1, 2, 3]).r2 = some 1 :=
  r2_one_when_predicted_equals_actual [1, 2, 3]
    ⟨1, by simp, 2, by simp, by norm_num⟩

/-- Claim C6: when all observed values are equal (zero variance),
`ss_tot = 0` and the code's `1 - ss_res/ss_tot` is a non-finite float
(`none` in this embedding — numpy yields `NaN` or `-inf`), never the
real number 0 or 1. -/
theorem r2_undefined_on_zero_variance (predicted actual : List ℝ)
    (x : ℝ) (_hlen : predicted.length = actual.length) (hne : actual ≠ [])
    (hconst : ∀ a ∈ actual, a = x) :
    (calculate_statistics predicted actual).r2 = none ∧
    (calculate_statistics predicted actual).r2 ≠ some 0 ∧
    (calculate_statistics predicted actual).r2 ≠ some 1 := by
  have h := r2_eq_none_of_const predicted actual x hne hconst
  exact ⟨h, by rw [h]; simp, by rw [h]; simp⟩

/-- Witness for C6 at `predicted = [4,4,4]`, `actual = [5,5,5]`. -/
theorem r2_undefined_witness :
    (calculate_statistics [4, 4, 4] [5, 5, 5]).r2 = none :=
  (r2_undefined_on_zero_variance [4, 4, 4] [5, 5, 5] 5 rfl (by simp)
    (by simp)).1

/-- Claim C8: `calculate_statistics` returns RMSE and MSE satisfying
`RMSE² = MSE` exactly — RMSE is by construction the square root of
MSE. -/
theorem rmse_sq_eq_mse (predicted actual : List ℝ)
    (_hlen : predicted.length = actual.length) (_hne : actual ≠ []) :
    (calculate_statistics predicted actual).rmse ^ 2 =
      (calculate_statistics predicted actual).mse ∧
    (calculate_statistics predicted actual).rmse =
      Real.sqrt ((calculate_statistics predicted actual).mse) := by
  have hrm : (calculate_statistics predicted actual).rmse =
      Real.sqrt ((calculate_statistics predicted actual).mse) := rfl
  have hnn : 0 ≤ (calculate_statistics predicted actual).mse := by
    have hms : (calculate_statistics predicted actual).mse =
        ((List.zipWith (fun a p => a - p) actual predicted).map
            fun r => r ^ 2).sum /
          (((List.zipWith (fun a p => a - p) actual predicted).length : ℕ) :
            ℝ) := rfl
    rw [hms]
    apply div_nonneg
    · apply List.sum_nonneg
      intro z hz
      obtain ⟨r, -, rfl⟩ := List.mem_map.mp hz
      positivity
    · positivity
  exact ⟨by rw [hrm]; exact Real.sq_sqrt hnn, hrm⟩

/-- Witness for C8 at `predicted = [1, 2]`, `actual = [2, 4]`. -/
theorem rmse_sq_eq_mse_witness :
    (calculate_statistics [1, 2] [2, 4]).rmse ^ 2 =
      (calculate_statistics [1, 2] [2, 4]).mse ∧
    (calculate_statistics [1, 2] [2, 4]).rmse =
      Real.sqrt ((calculate_statistics [1, 2] [2, 4]).mse) :=
  rmse_sq_eq_mse [1, 2] [2, 4] rfl (by simp)
